import Mathlib

/-!
# Verification of the sage RAG pipeline (src/rag.py)

A shallow embedding of the core retrieval-augmented-generation pipeline of
`src/rag.py`.  Pure Python logic (grading, the conditional edge, context
rendering, result merging) is translated into executable Lean functions;
external effects (the vector store searches, the language-model calls, the
web-search provider) are modelled as oracle inputs, with fallible calls
returning `Except Unit _`.  Strings are Lean `String`s; Python's
`str.lower`/`str.split`/substring tests are modelled explicitly on the
underlying character lists.
-/

/-- A retrieved chunk: `page_content` plus the metadata fields the pipeline
reads (`source`, and `page` which is absent for flat text files). -/
structure Document where
  page_content : String
  source : String
  page : Option Nat
  deriving DecidableEq

/-- One web search result as produced by `google_search` (rag.py line 330). -/
structure WebResult where
  title : String
  snippet : String
  link : String
  deriving DecidableEq

/-! ## String primitives

Python's `str.lower()` (ASCII range; the queries and anchor terms involved
are ASCII), `str.split()` (split on whitespace, dropping empty pieces) and
the `in` substring test, modelled on `List Char`. -/

/-- ASCII lowercasing of one character. -/
def lowerChar (c : Char) : Char :=
  if c.toNat ≥ 65 && c.toNat ≤ 90 then Char.ofNat (c.toNat + 32) else c

/-- Model of `s.lower()` on the character list of a string. -/
def lowerStr (s : String) : List Char :=
  s.data.map lowerChar

/-- ASCII whitespace, the separator class of Python's `str.split()`. -/
def isWS (c : Char) : Bool :=
  c == ' ' || c == '\t' || c == '\n' || c == '\r' || c == '\x0b' || c == '\x0c'

/-- Worker for whitespace splitting: `acc` holds the current word reversed. -/
def splitWSAux : List Char → List Char → List (List Char)
  | [], acc => if acc.isEmpty then [] else [acc.reverse]
  | c :: cs, acc =>
    if isWS c then
      if acc.isEmpty then splitWSAux cs [] else acc.reverse :: splitWSAux cs []
    else splitWSAux cs (c :: acc)

/-- Model of `question.lower().split()` (rag.py line 384): the query's lowercase
tokens, empty pieces dropped. -/
def queryTerms (q : String) : List (List Char) :=
  splitWSAux (lowerStr q) []

/-- Python's `needle in haystack` substring test on character lists. -/
def occursIn (needle hay : List Char) : Bool :=
  (List.range (hay.length + 1)).any fun i =>
    (hay.drop i).take needle.length == needle

/-! ## Relevance Grader (`RAGSystem.grade_documents`, rag.py lines 367-406) -/

/-- The per-chunk keep test of `grade_documents` (rag.py lines 387-392):
early page (missing page defaults to 0), shares a lowercase token with the
query, or contains one of the hard-coded anchor terms. -/
def isRelevant (question : String) (doc : Document) : Bool :=
  let doc_text := lowerStr doc.page_content
  decide (doc.page.getD 0 ≤ 5) ||
  (queryTerms question).any (fun term => occursIn term doc_text) ||
  occursIn "spiritual".data doc_text ||
  occursIn "machine".data doc_text ||
  occursIn "consciousness".data doc_text ||
  occursIn "intelligence".data doc_text

/-- Embedding of `grade_documents` (rag.py lines 367-406): returns the surviving chunks
and the `web_search_needed` flag ("Yes" when no documents were retrieved at
all, or fewer than 5 survive filtering). -/
def grade_documents (question : String) (documents : List Document) :
    List Document × String :=
  match documents with
  | [] => ([], "Yes")
  | _ :: _ =>
    let filtered := documents.filter (isRelevant question)
    (filtered, if filtered.length < 5 then "Yes" else "No")

/-! ## Conditional edge (`RAGSystem.decide_next_step`, rag.py lines 506-533) -/

/-- The recency/comparison keyword list of `decide_next_step`
(rag.py lines 521-525). -/
def recencyKeywords : List String :=
  ["latest", "recent", "current", "new",
   "compare", "vs", "versus", "difference",
   "review", "today", "now", "update"]

/-- Embedding of `decide_next_step` (rag.py lines 506-533): web search is forced when no
documents survived, the grader flagged insufficiency, fewer than 3 survive,
or the lowercased query contains a recency/comparison keyword. -/
def decide_next_step (web_search_needed : String) (documents : List Document)
    (query : String) : String :=
  let q := lowerStr query
  let should_web_search :=
    documents.isEmpty ||
    web_search_needed == "Yes" ||
    decide (documents.length < 3) ||
    recencyKeywords.any (fun kw => occursIn kw.data q)
  if should_web_search then "rewrite" else "generate"

/-! ## Retriever merge (`VectorStoreManager.search_local_documents`,
rag.py lines 175-211)

The two vector-store searches (diversity-aware MMR and plain similarity) are
external calls; the merge of their result lists is the repository's own
logic, embedded here.  `seen` mirrors the Python `seen_contents` set,
initialised with the texts of the MMR results. -/

/-- The merge loop of `search_local_documents` (rag.py lines 198-202):
append each similarity hit whose text was not seen yet, recording its
text as seen. -/
def appendUnseen (results : List Document) (seen : List String) :
    List Document → List Document
  | [] => results
  | d :: ds =>
    if seen.contains d.page_content then appendUnseen results seen ds
    else appendUnseen (results ++ [d]) (seen ++ [d.page_content]) ds

/-- Embedding of `search_local_documents` on a built index (rag.py lines 177-210), as a
function of the two search results: MMR results first, then the unseen
similarity hits. -/
def search_local_documents (mmr_results similarity_results : List Document) :
    List Document :=
  appendUnseen mmr_results (mmr_results.map (·.page_content)) similarity_results

/-- The appended suffix of the merge, separated from the accumulator: the
similarity hits whose text is new relative to `seen` and to the hits
already appended. -/
def filterNew (seen : List String) : List Document → List Document
  | [] => []
  | d :: ds =>
    if seen.contains d.page_content then filterNew seen ds
    else d :: filterNew (seen ++ [d.page_content]) ds

/-! ## Answer Synthesizer context rendering
(`RAGSystem.generate_answer`, rag.py lines 424-504) -/

/-- The rendering of a page number inside `generate_answer`
(`metadata.get("page", "N/A")`, rag.py line 451). -/
def pageStr : Option Nat → String
  | some n => toString n
  | none => "N/A"

/-- The dedup key `f"{source}-{page}"` of rag.py line 452. -/
def pageKey (source : String) (page : Option Nat) : String :=
  source ++ "-" ++ pageStr page

/-- First-occurrence deduplication, the key order of a Python dict built by
insertion (rag.py lines 439-445). -/
def firstDedup : List String → List String
  | [] => []
  | s :: rest => s :: (firstDedup rest).filter (fun t => t ≠ s)

/-- Embedding of `docs_by_source` (rag.py lines 439-445): sources in first-occurrence
order, each with its documents in retrieval order. -/
def groupBySource (docs : List Document) : List (String × List Document) :=
  (firstDedup (docs.map (·.source))).map
    (fun s => (s, docs.filter (fun d => d.source == s)))

/-- Stable insertion step for the per-source sort
`sorted(docs, key=lambda x: x.metadata.get("page", 0))` (rag.py line 450). -/
def insertByPage (d : Document) : List Document → List Document
  | [] => [d]
  | x :: xs =>
    if d.page.getD 0 ≤ x.page.getD 0 then d :: x :: xs
    else x :: insertByPage d xs

/-- Stable sort by `metadata.get("page", 0)` ascending: Python's `sorted`
is stable, and a stable sort by a fixed key is unique, so insertion sort
embeds it faithfully. -/
def sortByPage : List Document → List Document
  | [] => []
  | d :: ds => insertByPage d (sortByPage ds)

/-- The inner loop of rag.py lines 450-455: walk one source's sorted
documents, emitting each whose `(source, page)` key is unseen and recording
the key.  Returns the emitted chunks and the grown seen set. -/
def renderChunks (seen : List String) :
    List Document → List Document × List String
  | [] => ([], seen)
  | d :: ds =>
    let key := pageKey d.source d.page
    if seen.contains key then renderChunks seen ds
    else
      let (rest, seen') := renderChunks (seen ++ [key]) ds
      (d :: rest, seen')

/-- The outer loop of rag.py lines 448-458: process each source's documents
(sorted by page) against the shared `seen_pages` set; a source contributes
a block only when at least one chunk was emitted. -/
def renderSources (seen : List String) :
    List (String × List Document) →
    List (String × List Document) × List String
  | [] => ([], seen)
  | (s, docs) :: rest =>
    let (chunks, seen') := renderChunks seen (sortByPage docs)
    let (others, seen'') := renderSources seen' rest
    (if chunks.isEmpty then others else (s, chunks) :: others, seen'')

/-- The structured document context of `generate_answer`: the list of
rendered source blocks, each a source name with its emitted chunks. -/
def renderedContext (documents : List Document) :
    List (String × List Document) :=
  (renderSources [] (groupBySource documents)).1

/-- One rendered chunk line `[Page {page}]: {content.strip()}`
(rag.py line 455). -/
def chunkText (d : Document) : String :=
  "[Page " ++ pageStr d.page ++ "]: " ++ d.page_content.trim

/-- One rendered source block `Source: {source}\n` + joined chunks
(rag.py line 458). -/
def sourceBlock (s : String) (chunks : List Document) : String :=
  "Source: " ++ s ++ "\n" ++ String.intercalate "\n\n" (chunks.map chunkText)

/-- Embedding of `doc_context` (rag.py line 461). -/
def doc_context (documents : List Document) : String :=
  let blocks := (renderedContext documents).map (fun p => sourceBlock p.1 p.2)
  if blocks.isEmpty then "No relevant documents found."
  else String.intercalate "\n\n---\n\n" blocks

/-- Embedding of `web_context` (rag.py lines 464-476): numbered result blocks, or an
explicit no-results marker. -/
def web_context (web_results : List WebResult) : String :=
  if web_results.isEmpty then "No web results available."
  else
    String.intercalate "\n\n"
      (web_results.enum.map fun p =>
        "[Result " ++ toString (p.1 + 1) ++ "]\n" ++
        "Title: " ++ p.2.title ++ "\n" ++
        "Content: " ++ p.2.snippet ++ "\n" ++
        "URL: " ++ p.2.link)

/-! ## Workflow pipeline (`RAGSystem`, rag.py lines 244-568)

The per-query state (the `GraphState` TypedDict plus the
`web_search_needed` flag the nodes pass through it) and the node functions.
External calls are an `Oracle`: the vector-store search result, the two
language-model calls (as functions of the prompt they are given) and the
web-search provider, each `Except Unit _` since any of them can raise. -/

/-- The per-query workflow state (`GraphState`, rag.py lines 235-241, plus
the `web_search_needed` key set by grading).  Keys absent at `invoke` time
are modelled by the neutral values the nodes' `.get` defaults produce. -/
structure WFState where
  query : String
  documents : List Document
  web_search_needed : String
  rewritten_query : Option String
  web_results : List WebResult
  answer : Option String
  deriving DecidableEq

/-- The state `workflow.invoke({"query": query})` starts from: only the
query is set (rag.py line 563). -/
def initState (q : String) : WFState :=
  { query := q, documents := [], web_search_needed := "No",
    rewritten_query := none, web_results := [], answer := none }

/-- The external world of one pipeline run: the vector-store search result,
the rewrite and answer language-model calls (prompt ↦ result), and the web
search.  `Except.error` models a raised exception. -/
structure Oracle where
  retrieved : Except Unit (List Document)
  llmRewrite : String → Except Unit String
  webSearch : String → Except Unit (List WebResult)
  llmAnswer : String → Except Unit String

/-- Embedding of `retrieve_documents` (rag.py lines 332-365): the search is wrapped in
try/except, a failure degrades to no documents; `web_results` is
initialised empty either way. -/
def retrieve_documents (o : Oracle) (st : WFState) : WFState :=
  match o.retrieved with
  | .ok docs => { st with documents := docs, web_results := [] }
  | .error _ => { st with documents := [], web_results := [] }

/-- The `grade_documents` node as a state transformer: stores the filtered
documents and the `web_search_needed` flag. -/
def grade_step (st : WFState) : WFState :=
  let r := grade_documents st.query st.documents
  { st with documents := r.1, web_search_needed := r.2 }

/-- The prompt `rewrite_query` sends to the model (rag.py lines 410-412). -/
def rewritePrompt (q : String) : String :=
  "Rewrite this query for web search to find the most relevant information: "
    ++ q

/-- Embedding of `rewrite_query` (rag.py lines 408-413): one bare `llm.predict` call,
with no handler — a model failure propagates out of the node. -/
def rewrite_query (o : Oracle) (st : WFState) : Except Unit WFState :=
  match o.llmRewrite (rewritePrompt st.query) with
  | .ok r => .ok { st with rewritten_query := some r }
  | .error e => .error e

/-- Embedding of `web_search` (rag.py lines 415-422): searches with the rewritten query
when present, and catches any provider error, degrading to no results. -/
def web_search (o : Oracle) (st : WFState) : WFState :=
  let q := st.rewritten_query.getD st.query
  match o.webSearch q with
  | .ok rs => { st with web_results := rs }
  | .error _ => { st with web_results := [] }

/-- The full prompt `generate_answer` builds (rag.py lines 483-496). -/
def buildPrompt (persona q : String) (docs : List Document)
    (web : List WebResult) : String :=
  persona ++ "\n\n<input>\nQuestion: " ++ q ++
  "\n\nDocument Context:\n" ++ doc_context docs ++
  "\n\nWeb Results:\n" ++ web_context web ++
  "\n</input>\n\n<CURRENT_CURSOR_POSITION>\nPlease provide your response:</prompt>"

/-- Embedding of `generate_answer` (rag.py lines 424-504): renders the contexts, builds
the prompt and issues one bare `llm.predict` call — again no handler, a
model failure propagates out of the node; on success the answer is set. -/
def generate_answer (o : Oracle) (persona : String) (st : WFState) :
    Except Unit WFState :=
  match o.llmAnswer (buildPrompt persona st.query st.documents st.web_results) with
  | .ok a => .ok { st with answer := some a }
  | .error e => .error e

/-- The conditional edge's decision, read off the post-grading state
(rag.py line 546). -/
def decideAfterGrade (st : WFState) : String :=
  decide_next_step st.web_search_needed st.documents st.query

/-- One `workflow.invoke({"query": q})` of the graph compiled by
`create_workflow` (rag.py lines 535-551): RETRIEVE, GRADE, then either the
REWRITE → WEB_SEARCH → GENERATE chain or GENERATE directly; a failure
raised inside a node aborts the run. -/
def runWorkflow (o : Oracle) (persona q : String) : Except Unit WFState :=
  let st1 := retrieve_documents o (initState q)
  let st2 := grade_step st1
  if decideAfterGrade st2 == "rewrite" then
    match rewrite_query o st2 with
    | .ok st3 => generate_answer o persona (web_search o st3)
    | .error e => .error e
  else generate_answer o persona st2

/-- The fixed message of rag.py line 560. -/
def notInitializedMsg : String :=
  "The knowledge base is not initialized. Please upload documents first."

/-- The degraded-service message of rag.py line 568. -/
def degradedMsg : String :=
  "I apologize, but I encountered an error while processing your request. Please try again or contact support if the issue persists."

/-- The `response.get("answer", ...)` fallback of rag.py line 565. -/
def fallbackAnswerMsg : String :=
  "Sorry, I couldn\x27t generate an answer."

/-- Embedding of `process_query` (rag.py lines 557-568): the initialization check, the
try/except around the workflow run, and the answer extraction. -/
def process_query (initialized : Bool) (o : Oracle) (persona q : String) :
    String :=
  if initialized then
    match runWorkflow o persona q with
    | .ok st => st.answer.getD fallbackAnswerMsg
    | .error _ => degradedMsg
  else notInitializedMsg

/-! ## Control-flow graph of `create_workflow` (rag.py lines 535-551)

The node set and edges of the compiled graph, abstracted over the string the
conditional edge's decision function returns at GRADE. -/

/-- The workflow graph's nodes, plus the END terminal. -/
inductive Node where
  | retrieve | grade | rewriteNode | webSearchNode | generate | endNode
  deriving DecidableEq

/-- The successor of each node in the graph wired by `create_workflow`:
`retrieve → grade`, the conditional edge at `grade` (mapping "rewrite" to
the REWRITE node and anything else to GENERATE, per the edge map of
rag.py line 546), `rewrite → web_search → generate → END`. -/
def stepNode (d : String) : Node → Option Node
  | .retrieve => some .grade
  | .grade => some (if d == "rewrite" then .rewriteNode else .generate)
  | .rewriteNode => some .webSearchNode
  | .webSearchNode => some .generate
  | .generate => some .endNode
  | .endNode => none

/-- The node path from `n`, following at most `fuel` transitions. -/
def pathFrom (d : String) : Nat → Node → List Node
  | 0, n => [n]
  | fuel + 1, n =>
    match stepNode d n with
    | none => [n]
    | some n' => n :: pathFrom d fuel n'

/-- Embedding of `process_text_content` (rag.py lines 88-98): a flat text file becomes a
single `Document` whose metadata has only `source` — no `page` entry; a
decode failure (modelled as `none` input) yields no document. -/
def process_text_content (decoded : Option String) (filename : String) :
    Option Document :=
  match decoded with
  | some text =>
    some { page_content := text, source := filename, page := none }
  | none => none

/-! ## Theorems -/

/-- The condition of `decide_next_step`, as a proposition. -/
def webSearchForced (wsn : String) (docs : List Document) (q : String) :
    Prop :=
  docs = [] ∨ wsn = "Yes" ∨ docs.length < 3 ∨
    ∃ kw ∈ recencyKeywords, occursIn kw.data (lowerStr q) = true

theorem decide_next_step_eq (wsn : String) (docs : List Document)
    (q : String) :
    (decide_next_step wsn docs q = "rewrite" ↔ webSearchForced wsn docs q) ∧
    (decide_next_step wsn docs q = "generate" ↔
      ¬ webSearchForced wsn docs q) := by
  have hb : (docs.isEmpty || wsn == "Yes" || decide (docs.length < 3) ||
      recencyKeywords.any (fun kw => occursIn kw.data (lowerStr q))) = true ↔
      webSearchForced wsn docs q := by
    simp [webSearchForced, List.isEmpty_iff, List.any_eq_true, or_assoc]
  rw [← hb]
  cases hc : (docs.isEmpty || wsn == "Yes" || decide (docs.length < 3) ||
      recencyKeywords.any (fun kw => occursIn kw.data (lowerStr q))) <;>
    simp [decide_next_step, hc]

/-- C4: the conditional edge out of GRADE goes to REWRITE exactly when the
surviving document list is empty, the grader flagged insufficiency
(`web_search_needed = "Yes"`), fewer than 3 documents survive, or the
lowercased query contains one of the fixed recency/comparison keywords;
otherwise it goes to GENERATE.  In particular empty documents always force
REWRITE, and a query containing "latest" forces REWRITE regardless of how
many documents survived. -/
theorem grade_conditional_edge_correct (wsn : String) (docs : List Document)
    (q : String) :
    (decide_next_step wsn docs q = "rewrite" ↔ webSearchForced wsn docs q) ∧
    (decide_next_step wsn docs q = "generate" ↔
      ¬ webSearchForced wsn docs q) ∧
    (docs = [] → decide_next_step wsn docs q = "rewrite") ∧
    (occursIn "latest".data (lowerStr q) = true →
      decide_next_step wsn docs q = "rewrite") := by
  obtain ⟨h1, h2⟩ := decide_next_step_eq wsn docs q
  refine ⟨h1, h2, ?_, ?_⟩
  · intro h
    exact h1.mpr (Or.inl h)
  · intro h
    exact h1.mpr (Or.inr (Or.inr (Or.inr ⟨"latest", by simp [recencyKeywords], h⟩)))

/-- Witness for C4: with no surviving documents and a "latest" query the
edge is REWRITE. -/
theorem grade_conditional_edge_correct_witness :
    decide_next_step "No" [] "What is the latest news" = "rewrite" :=
  (grade_conditional_edge_correct "No" [] "What is the latest news").2.2.1 rfl

/-- C10 counterexample: the claim's instance ""canvas" contains "vs"" is
false — "vs" is not a substring of "canvas" (the letters v and s are not
adjacent), no keyword occurs in "canvas" at all, and with three surviving
documents a "canvas" query goes to GENERATE, not REWRITE. -/
theorem keyword_substring_canvas_counterexample :
    occursIn "vs".data (lowerStr "canvas") = false ∧
    decide_next_step "No"
      [⟨"a", "s", some 1⟩, ⟨"b", "s", some 2⟩, ⟨"c", "s", some 3⟩]
      "canvas" = "generate" := by
  constructor <;> decide

/-- C10 (amended): the recency/comparison keyword test is a substring test
on the lowercased query, not a whole-word test: whenever any keyword occurs
as a substring of the lowercased query — also inside a longer word, e.g.
"now" inside "know" — `decide_next_step` returns the REWRITE branch
regardless of how many documents survived grading.  ("canvas", however,
does not contain "vs", see the counterexample.) -/
theorem keyword_substring_forces_rewrite (wsn : String)
    (docs : List Document) (q : String)
    (h : recencyKeywords.any (fun kw => occursIn kw.data (lowerStr q)) = true) :
    decide_next_step wsn docs q = "rewrite" := by
  have h' := (decide_next_step_eq wsn docs q).1.mpr
  apply h'
  rw [List.any_eq_true] at h
  obtain ⟨kw, hkw, hocc⟩ := h
  exact Or.inr (Or.inr (Or.inr ⟨kw, hkw, hocc⟩))

/-- Witness for C10 (amended): "know" contains the keyword "now", so a
fully sufficient document set is still overridden to REWRITE. -/
theorem keyword_substring_forces_rewrite_witness :
    decide_next_step "No"
      [⟨"a", "s", some 1⟩, ⟨"b", "s", some 2⟩, ⟨"c", "s", some 3⟩,
       ⟨"d", "s", some 4⟩, ⟨"e", "s", some 5⟩]
      "What do you know" = "rewrite" :=
  keyword_substring_forces_rewrite "No" _ "What do you know" (by decide)

/-- C6: grading is monotone in the query's token set.  The keep test
`isRelevant` depends on the query only through its lowercase token list, so
a chunk kept for `q1` is kept for any `q2` whose token set contains all of
`q1`'s tokens. -/
theorem grading_monotone (q1 q2 : String) (docs : List Document)
    (doc : Document)
    (hsub : ∀ t ∈ queryTerms q1, t ∈ queryTerms q2)
    (hkept : doc ∈ (grade_documents q1 docs).1) :
    doc ∈ (grade_documents q2 docs).1 := by
  have hrel : ∀ d : Document, isRelevant q1 d = true → isRelevant q2 d = true := by
    intro d hd
    unfold isRelevant at hd ⊢
    simp only [Bool.or_eq_true, List.any_eq_true] at hd ⊢
    rcases hd with (((((h | h) | h) | h) | h) | h)
    · exact Or.inl (Or.inl (Or.inl (Or.inl (Or.inl h))))
    · obtain ⟨t, ht, hocc⟩ := h
      exact Or.inl (Or.inl (Or.inl (Or.inl (Or.inr ⟨t, hsub t ht, hocc⟩))))
    · exact Or.inl (Or.inl (Or.inl (Or.inr h)))
    · exact Or.inl (Or.inl (Or.inr h))
    · exact Or.inl (Or.inr h)
    · exact Or.inr h
  cases docs with
  | nil => simp [grade_documents] at hkept
  | cons d ds =>
    simp only [grade_documents, List.mem_filter] at hkept ⊢
    exact ⟨hkept.1, hrel doc hkept.2⟩

/-- Witness for C6: a chunk kept for "alpha" (token overlap) is still kept
when the query grows to "ALPHA beta". -/
theorem grading_monotone_witness :
    (⟨"zz alpha zz", "s", some 9⟩ : Document) ∈
      (grade_documents "ALPHA beta" [⟨"zz alpha zz", "s", some 9⟩]).1 :=
  grading_monotone "alpha" "ALPHA beta" _ _ (by decide) (by decide)

/-- C9: a chunk with no `page` metadata — as `process_text_content`
produces for every flat .txt/.csv document — is always kept by
`grade_documents`, for every query: the missing page defaults to 0 and
0 ≤ 5 satisfies the early-page rule. -/
theorem pageless_chunk_always_kept (content fn q : String)
    (docs : List Document) (doc : Document)
    (hpage : doc.page = none) (hmem : doc ∈ docs) :
    process_text_content (some content) fn =
      some { page_content := content, source := fn, page := none } ∧
    doc ∈ (grade_documents q docs).1 := by
  refine ⟨rfl, ?_⟩
  have hrel : isRelevant q doc = true := by
    unfold isRelevant
    simp [hpage]
  cases docs with
  | nil => simp at hmem
  | cons d ds =>
    simp only [grade_documents, List.mem_filter]
    exact ⟨hmem, hrel⟩

/-- C8: for every value of the conditional decision, the path of the
compiled graph from RETRIEVE ends at END after at most 5 node transitions
(the fuel 5 suffices and the path has at most 6 nodes), the path passes
through GENERATE, and GENERATE is the only node with an edge into END — no
path bypasses synthesis. -/
theorem workflow_terminates_through_generate (d : String) :
    (pathFrom d 5 Node.retrieve).getLast? = some Node.endNode ∧
    Node.generate ∈ pathFrom d 5 Node.retrieve ∧
    (pathFrom d 5 Node.retrieve).length ≤ 6 ∧
    (∀ n, stepNode d n = some Node.endNode → n = Node.generate) := by
  refine ⟨?_, ?_, ?_, ?_⟩
  · by_cases h : d = "rewrite" <;> simp [pathFrom, stepNode, h]
  · by_cases h : d = "rewrite" <;> simp [pathFrom, stepNode, h]
  · by_cases h : d = "rewrite" <;> simp [pathFrom, stepNode, h]
  · intro n hn
    cases n <;> simp [stepNode] at hn ⊢
    split at hn <;> simp_all
/-- Witness for C8: the only-edge-into-END conjunct at the GENERATE node,
along the branch where the grader decision is "generate". -/
theorem workflow_terminates_through_generate_witness :
    Node.generate ∈ pathFrom "generate" 5 Node.retrieve ∧
    Node.generate = Node.generate :=
  ⟨(workflow_terminates_through_generate "generate").2.1,
   (workflow_terminates_through_generate "generate").2.2.2 Node.generate rfl⟩

/-- A successful `generate_answer` always sets the answer field. -/
theorem generate_answer_sets_answer (o : Oracle) (persona : String)
    (st st' : WFState) (h : generate_answer o persona st = .ok st') :
    ∃ a, st'.answer = some a := by
  unfold generate_answer at h
  split at h
  · exact ⟨_, by cases h; rfl⟩
  · cases h

/-- A successful workflow run ends in a state whose answer is set, because
every path of the graph ends with `generate_answer`. -/
theorem runWorkflow_ok_answer (o : Oracle) (persona q : String)
    (st : WFState) (h : runWorkflow o persona q = .ok st) :
    ∃ a, st.answer = some a := by
  simp only [runWorkflow] at h
  split at h
  · split at h
    · exact generate_answer_sets_answer _ _ _ _ h
    · cases h
  · exact generate_answer_sets_answer _ _ _ _ h

/-- C1: `process_query` is a total function into strings, and its result is
exactly: the fixed "not initialized" message when the system is not
initialized; the degraded-service message when the pipeline run fails; and
the generated answer when the run succeeds (a successful run always carries
an answer, so the `.get` fallback never fires). -/
theorem process_query_total_string (init : Bool) (o : Oracle)
    (persona q : String) :
    (init = false → process_query init o persona q = notInitializedMsg) ∧
    (∀ e, init = true → runWorkflow o persona q = .error e →
      process_query init o persona q = degradedMsg) ∧
    (∀ st, init = true → runWorkflow o persona q = .ok st →
      ∃ a, st.answer = some a ∧ process_query init o persona q = a) := by
  refine ⟨?_, ?_, ?_⟩
  · intro h
    simp [process_query, h]
  · intro e hi hr
    simp [process_query, hi, hr]
  · intro st hi hr
    obtain ⟨a, ha⟩ := runWorkflow_ok_answer o persona q st hr
    exact ⟨a, ha, by simp [process_query, hi, hr, ha]⟩

/-- Witness for C1, exercising all three cases: not initialized; a failing
answer model (run fails, degraded message); an all-succeeding oracle (the
generated answer comes back verbatim). -/
theorem process_query_total_string_witness :
    process_query false
      ⟨.ok [], fun _ => .ok "rw", fun _ => .ok [], fun _ => .ok "ANSWER"⟩
      "p" "q" = notInitializedMsg ∧
    process_query true
      ⟨.ok [], fun _ => .ok "rw", fun _ => .ok [], fun _ => .error ()⟩
      "p" "q" = degradedMsg ∧
    process_query true
      ⟨.ok [], fun _ => .ok "rw", fun _ => .ok [], fun _ => .ok "ANSWER"⟩
      "p" "q" = "ANSWER" := by
  refine ⟨(process_query_total_string false _ "p" "q").1 rfl,
    (process_query_total_string true _ "p" "q").2.1 () rfl rfl, ?_⟩
  obtain ⟨a, ha, hp⟩ := (process_query_total_string true
      ⟨.ok [], fun _ => .ok "rw", fun _ => .ok [], fun _ => .ok "ANSWER"⟩
      "p" "q").2.2
    { query := "q", documents := [], web_search_needed := "Yes",
      rewritten_query := some "rw", web_results := [], answer := some "ANSWER" }
    rfl rfl
  have : a = "ANSWER" := by simpa using ha.symm
  rw [this] at hp
  exact hp

/-- C2 counterexample: `rewrite_query` wraps its model call in no handler,
so when the call raises, the node propagates the failure instead of
returning the original query: with a failing rewrite model the node's
result is an error, not a state. -/
theorem rewrite_failure_propagates_counterexample :
    rewrite_query
      ⟨.ok [], fun _ => .error (), fun _ => .ok [], fun _ => .ok "a"⟩
      (initState "q") = .error () := rfl

/-- C2 (amended): a failure of the model call inside `rewrite_query`
propagates out of the node unchanged (the node has no handler); on success
the node leaves the query unchanged and only records the rewritten query.
The propagated failure is caught one level up, in `process_query`, which
returns the degraded-service message whenever the conditional edge routed
the run through REWRITE and the rewrite model always fails. -/
theorem rewrite_failure_propagates (o : Oracle) (st : WFState)
    (persona q : String) :
    (∀ e, o.llmRewrite (rewritePrompt st.query) = .error e →
      rewrite_query o st = .error e) ∧
    (∀ r, o.llmRewrite (rewritePrompt st.query) = .ok r →
      rewrite_query o st = .ok { st with rewritten_query := some r }) ∧
    ((∀ s, o.llmRewrite s = .error ()) →
      decideAfterGrade (grade_step (retrieve_documents o (initState q))) =
        "rewrite" →
      process_query true o persona q = degradedMsg) := by
  refine ⟨?_, ?_, ?_⟩
  · intro e he
    simp [rewrite_query, he]
  · intro r hr
    simp [rewrite_query, hr]
  · intro hfail hroute
    have hrw : rewrite_query o
        (grade_step (retrieve_documents o (initState q))) = .error () := by
      simp [rewrite_query, hfail]
    simp [process_query, runWorkflow, hroute, hrw]

/-- Witness for C2: a concrete oracle whose rewrite model always fails; the
node returns the error and the user sees the degraded-service message. -/
theorem rewrite_failure_propagates_witness :
    rewrite_query
      ⟨.ok [], fun _ => .error (), fun _ => .ok [], fun _ => .ok "a"⟩
      (initState "q") = .error () ∧
    process_query true
      ⟨.ok [], fun _ => .error (), fun _ => .ok [], fun _ => .ok "a"⟩
      "p" "q" = degradedMsg :=
  ⟨(rewrite_failure_propagates
      ⟨.ok [], fun _ => .error (), fun _ => .ok [], fun _ => .ok "a"⟩
      (initState "q") "p" "q").1 () rfl,
   (rewrite_failure_propagates
      ⟨.ok [], fun _ => .error (), fun _ => .ok [], fun _ => .ok "a"⟩
      (initState "q") "p" "q").2.2 (fun _ => rfl) rfl⟩

/-- C3 counterexample: `generate_answer` wraps its single model call in no
handler either: with a failing answer model the node's result is an error —
no fixed degraded-service answer string is produced inside the node. -/
theorem generate_failure_propagates_counterexample :
    generate_answer
      ⟨.ok [], fun _ => .ok "rw", fun _ => .ok [], fun _ => .error ()⟩
      "p" (initState "q") = .error () := rfl

/-- C3 (amended): a failure of the model call inside `generate_answer`
propagates out of the node unchanged; on success the node records the
answer.  The degraded-service answer string the user sees is produced by
the `try/except` in `process_query`, not inside `generate_answer`: whenever
the answer model always fails, `process_query` returns the degraded-service
message whatever path the run takes. -/
theorem generate_failure_propagates (o : Oracle) (persona : String)
    (st : WFState) (q : String) :
    (∀ e, o.llmAnswer
        (buildPrompt persona st.query st.documents st.web_results) =
          .error e →
      generate_answer o persona st = .error e) ∧
    (∀ a, o.llmAnswer
        (buildPrompt persona st.query st.documents st.web_results) = .ok a →
      generate_answer o persona st = .ok { st with answer := some a }) ∧
    ((∀ s, o.llmAnswer s = .error ()) →
      process_query true o persona q = degradedMsg) := by
  refine ⟨?_, ?_, ?_⟩
  · intro e he
    simp [generate_answer, he]
  · intro a ha
    simp [generate_answer, ha]
  · intro hfail
    have hgen : ∀ st' : WFState, generate_answer o persona st' = .error () := by
      intro st'
      simp [generate_answer, hfail]
    have hrun : runWorkflow o persona q = .error () := by
      simp only [runWorkflow]
      cases hr : rewrite_query o
          (grade_step (retrieve_documents o (initState q))) with
      | ok st3 => split <;> simp [hr, hgen]
      | error e => split <;> simp [hr, hgen]
    simp [process_query, hrun]

/-- Witness for C3: a concrete oracle whose answer model always fails; the
node returns the error and the user sees the degraded-service message. -/
theorem generate_failure_propagates_witness :
    generate_answer
      ⟨.ok [], fun _ => .ok "rw", fun _ => .ok [], fun _ => .error ()⟩
      "p" (initState "q") = .error () ∧
    process_query true
      ⟨.ok [], fun _ => .ok "rw", fun _ => .ok [], fun _ => .error ()⟩
      "p" "q" = degradedMsg :=
  ⟨(generate_failure_propagates
      ⟨.ok [], fun _ => .ok "rw", fun _ => .ok [], fun _ => .error ()⟩
      "p" (initState "q") "q").1 () rfl,
   (generate_failure_propagates
      ⟨.ok [], fun _ => .ok "rw", fun _ => .ok [], fun _ => .error ()⟩
      "p" (initState "q") "q").2.2 (fun _ => rfl)⟩

theorem filterNew_cons_mem (seen : List String) (d : Document)
    (ds : List Document) (h : d.page_content ∈ seen) :
    filterNew seen (d :: ds) = filterNew seen ds := by
  simp [filterNew, h]

theorem filterNew_cons_not_mem (seen : List String) (d : Document)
    (ds : List Document) (h : d.page_content ∉ seen) :
    filterNew seen (d :: ds) =
      d :: filterNew (seen ++ [d.page_content]) ds := by
  simp [filterNew, h]

theorem appendUnseen_eq (sim : List Document) :
    ∀ (results : List Document) (seen : List String),
    appendUnseen results seen sim = results ++ filterNew seen sim := by
  induction sim with
  | nil => intro results seen; simp [appendUnseen, filterNew]
  | cons d ds ih =>
    intro results seen
    by_cases h : d.page_content ∈ seen
    · rw [filterNew_cons_mem _ _ _ h]
      simpa [appendUnseen, h] using ih results seen
    · rw [filterNew_cons_not_mem _ _ _ h]
      simpa [appendUnseen, h] using ih (results ++ [d]) (seen ++ [d.page_content])

theorem filterNew_sublist (sim : List Document) :
    ∀ seen, (filterNew seen sim).Sublist sim := by
  induction sim with
  | nil => intro seen; simp [filterNew]
  | cons d ds ih =>
    intro seen
    by_cases h : d.page_content ∈ seen
    · rw [filterNew_cons_mem _ _ _ h]
      exact (ih seen).cons d
    · rw [filterNew_cons_not_mem _ _ _ h]
      exact (ih (seen ++ [d.page_content])).cons₂ d

theorem filterNew_fresh (sim : List Document) :
    ∀ seen d, d ∈ filterNew seen sim → d.page_content ∉ seen := by
  induction sim with
  | nil => intro seen d hd; simp [filterNew] at hd
  | cons x xs ih =>
    intro seen d hd
    by_cases h : x.page_content ∈ seen
    · rw [filterNew_cons_mem _ _ _ h] at hd
      exact ih seen d hd
    · rw [filterNew_cons_not_mem _ _ _ h] at hd
      rcases List.mem_cons.mp hd with rfl | hd'
      · exact h
      · intro habs
        exact ih _ d hd' (List.mem_append_left _ habs)

theorem filterNew_nodup (sim : List Document) :
    ∀ seen, ((filterNew seen sim).map (fun d => d.page_content)).Nodup := by
  induction sim with
  | nil => intro seen; simp [filterNew]
  | cons x xs ih =>
    intro seen
    by_cases h : x.page_content ∈ seen
    · rw [filterNew_cons_mem _ _ _ h]
      exact ih seen
    · rw [filterNew_cons_not_mem _ _ _ h]
      simp only [List.map_cons, List.nodup_cons]
      refine ⟨?_, ih _⟩
      intro habs
      obtain ⟨d, hd, hc⟩ := List.mem_map.mp habs
      exact filterNew_fresh xs _ d hd
        (List.mem_append_right _ (by simp [hc]))

theorem filterNew_covers (sim : List Document) :
    ∀ seen d, d ∈ sim →
      d.page_content ∈ seen ∨
      d.page_content ∈ (filterNew seen sim).map (fun d => d.page_content) := by
  induction sim with
  | nil => intro seen d hd; simp at hd
  | cons x xs ih =>
    intro seen d hd
    rcases List.mem_cons.mp hd with rfl | hd'
    · by_cases h : d.page_content ∈ seen
      · exact Or.inl h
      · rw [filterNew_cons_not_mem _ _ _ h]
        simp
    · by_cases h : x.page_content ∈ seen
      · rw [filterNew_cons_mem _ _ _ h]
        exact ih seen d hd'
      · rw [filterNew_cons_not_mem _ _ _ h]
        rcases ih (seen ++ [x.page_content]) d hd' with hs | hf
        · rcases List.mem_append.mp hs with hs' | hs'
          · exact Or.inl hs'
          · simp only [List.mem_singleton] at hs'
            simp [hs']
        · simp only [List.map_cons]
          exact Or.inr (List.mem_cons_of_mem _ hf)

/-- C7 counterexample: the merged sequence is not always free of repeated
texts — when the diversity (MMR) search itself returns two chunks with the
same text, both survive the merge, because the dedup set is only checked
against the similarity hits. -/
theorem retriever_merge_counterexample :
    ¬ ((search_local_documents
        [⟨"dup", "s", none⟩, ⟨"dup", "s", none⟩] []).map
          (fun d => d.page_content)).Nodup := by decide

/-- C7 (amended): the merge returns the MMR results first, unchanged and in
their original order, followed by exactly those similarity hits whose text
matches no earlier text in the merged sequence: the suffix is a
subsequence of the similarity results, none of its texts occurs among the
MMR texts, its texts are pairwise distinct, and every similarity hit's text
does occur somewhere in the merged result.  The merged sequence has no two
elements with identical text PROVIDED the MMR results themselves have none
(without that proviso the property fails, see the counterexample). -/
theorem retriever_merge (mmr sim : List Document) :
    ∃ T, search_local_documents mmr sim = mmr ++ T ∧
      T.Sublist sim ∧
      (∀ d ∈ T, d.page_content ∉ mmr.map (fun d => d.page_content)) ∧
      (T.map (fun d => d.page_content)).Nodup ∧
      (∀ d ∈ sim, d.page_content ∈
        (search_local_documents mmr sim).map (fun d => d.page_content)) ∧
      ((mmr.map (fun d => d.page_content)).Nodup →
        ((search_local_documents mmr sim).map
          (fun d => d.page_content)).Nodup) := by
  have hs : search_local_documents mmr sim =
      mmr ++ filterNew (mmr.map (fun d => d.page_content)) sim := by
    unfold search_local_documents
    exact appendUnseen_eq sim mmr _
  refine ⟨filterNew (mmr.map (fun d => d.page_content)) sim, hs,
    filterNew_sublist sim _, fun d hd => filterNew_fresh sim _ d hd,
    filterNew_nodup sim _, ?_, ?_⟩
  · intro d hd
    rw [hs, List.map_append, List.mem_append]
    exact filterNew_covers sim _ d hd
  · intro hmm
    rw [hs, List.map_append, List.nodup_append]
    refine ⟨hmm, filterNew_nodup sim _, ?_⟩
    intro a ha ha'
    obtain ⟨d, hd, hc⟩ := List.mem_map.mp ha'
    exact filterNew_fresh sim _ d hd (hc ▸ ha)

/-- Witness for C7 (amended): with duplicate-free MMR results, the merge of
a one-element MMR list with two similarity hits (one a text duplicate) is
duplicate-free and still covers every similarity hit's text. -/
theorem retriever_merge_witness :
    ((search_local_documents [⟨"x", "s", none⟩]
        [⟨"x", "t", none⟩, ⟨"y", "t", none⟩]).map
          (fun d => d.page_content)).Nodup ∧
    "y" ∈ (search_local_documents [⟨"x", "s", none⟩]
        [⟨"x", "t", none⟩, ⟨"y", "t", none⟩]).map
          (fun d => d.page_content) := by
  obtain ⟨T, h1, h2, h3, h4, h5, h6⟩ :=
    retriever_merge [⟨"x", "s", none⟩] [⟨"x", "t", none⟩, ⟨"y", "t", none⟩]
  exact ⟨h6 (by decide), h5 ⟨"y", "t", none⟩ (by decide)⟩

theorem mem_insertByPage (d x : Document) (l : List Document) :
    x ∈ insertByPage d l ↔ x = d ∨ x ∈ l := by
  induction l with
  | nil => simp [insertByPage]
  | cons y ys ih =>
    simp only [insertByPage]
    by_cases h : d.page.getD 0 ≤ y.page.getD 0
    · rw [if_pos h]
      simp [List.mem_cons, or_comm, or_assoc, or_left_comm]
    · rw [if_neg h]
      simp [List.mem_cons, ih, or_comm, or_assoc, or_left_comm]

theorem insertByPage_pairwise (d : Document) (l : List Document)
    (hl : l.Pairwise (fun a b => a.page.getD 0 ≤ b.page.getD 0)) :
    (insertByPage d l).Pairwise
      (fun a b => a.page.getD 0 ≤ b.page.getD 0) := by
  induction l with
  | nil => simp [insertByPage]
  | cons y ys ih =>
    rw [List.pairwise_cons] at hl
    obtain ⟨hy, hys⟩ := hl
    simp only [insertByPage]
    by_cases h : d.page.getD 0 ≤ y.page.getD 0
    · rw [if_pos h]
      refine List.Pairwise.cons ?_ (List.Pairwise.cons hy hys)
      intro b hb
      rcases List.mem_cons.mp hb with rfl | hb'
      · exact h
      · exact le_trans h (hy b hb')
    · rw [if_neg h]
      refine List.Pairwise.cons ?_ (ih hys)
      intro b hb
      rcases (mem_insertByPage d b ys).mp hb with rfl | hb'
      · exact le_of_not_le h
      · exact hy b hb'

theorem mem_sortByPage (x : Document) (l : List Document) :
    x ∈ sortByPage l ↔ x ∈ l := by
  induction l with
  | nil => simp [sortByPage]
  | cons d ds ih => simp [sortByPage, mem_insertByPage, ih]

theorem sortByPage_pairwise (l : List Document) :
    (sortByPage l).Pairwise (fun a b => a.page.getD 0 ≤ b.page.getD 0) := by
  induction l with
  | nil => simp [sortByPage]
  | cons d ds ih => exact insertByPage_pairwise d (sortByPage ds) ih

theorem renderChunks_cons_mem (seen : List String) (d : Document)
    (ds : List Document) (h : pageKey d.source d.page ∈ seen) :
    renderChunks seen (d :: ds) = renderChunks seen ds := by
  simp [renderChunks, h]

theorem renderChunks_cons_not_mem (seen : List String) (d : Document)
    (ds : List Document) (h : pageKey d.source d.page ∉ seen) :
    renderChunks seen (d :: ds) =
      (d :: (renderChunks (seen ++ [pageKey d.source d.page]) ds).1,
       (renderChunks (seen ++ [pageKey d.source d.page]) ds).2) := by
  simp [renderChunks, h]

theorem renderChunks_sublist (ds : List Document) :
    ∀ seen, (renderChunks seen ds).1.Sublist ds := by
  induction ds with
  | nil => intro seen; simp [renderChunks]
  | cons d ds ih =>
    intro seen
    by_cases h : pageKey d.source d.page ∈ seen
    · rw [renderChunks_cons_mem _ _ _ h]
      exact (ih seen).cons d
    · rw [renderChunks_cons_not_mem _ _ _ h]
      exact (ih _).cons₂ d

theorem renderChunks_seen_eq (ds : List Document) :
    ∀ seen, (renderChunks seen ds).2 =
      seen ++ (renderChunks seen ds).1.map
        (fun d => pageKey d.source d.page) := by
  induction ds with
  | nil => intro seen; simp [renderChunks]
  | cons d ds ih =>
    intro seen
    by_cases h : pageKey d.source d.page ∈ seen
    · rw [renderChunks_cons_mem _ _ _ h]
      exact ih seen
    · rw [renderChunks_cons_not_mem _ _ _ h]
      simp only [List.map_cons]
      rw [ih]
      simp

theorem renderChunks_fresh (ds : List Document) :
    ∀ seen d, d ∈ (renderChunks seen ds).1 →
      pageKey d.source d.page ∉ seen := by
  induction ds with
  | nil => intro seen d hd; simp [renderChunks] at hd
  | cons x xs ih =>
    intro seen d hd
    by_cases h : pageKey x.source x.page ∈ seen
    · rw [renderChunks_cons_mem _ _ _ h] at hd
      exact ih seen d hd
    · rw [renderChunks_cons_not_mem _ _ _ h] at hd
      rcases List.mem_cons.mp hd with rfl | hd'
      · exact h
      · intro habs
        exact ih _ d hd' (List.mem_append_left _ habs)

theorem renderChunks_keys_nodup (ds : List Document) :
    ∀ seen, ((renderChunks seen ds).1.map
      (fun d => pageKey d.source d.page)).Nodup := by
  induction ds with
  | nil => intro seen; simp [renderChunks]
  | cons x xs ih =>
    intro seen
    by_cases h : pageKey x.source x.page ∈ seen
    · rw [renderChunks_cons_mem _ _ _ h]
      exact ih seen
    · rw [renderChunks_cons_not_mem _ _ _ h]
      simp only [List.map_cons, List.nodup_cons]
      refine ⟨?_, ih _⟩
      intro habs
      obtain ⟨d, hd, hc⟩ := List.mem_map.mp habs
      exact renderChunks_fresh xs _ d hd
        (List.mem_append_right _ (by simp [hc]))

theorem renderSources_cons (seen : List String) (s : String)
    (docs : List Document) (rest : List (String × List Document)) :
    renderSources seen ((s, docs) :: rest) =
      (if (renderChunks seen (sortByPage docs)).1.isEmpty then
         (renderSources (renderChunks seen (sortByPage docs)).2 rest).1
       else (s, (renderChunks seen (sortByPage docs)).1) ::
         (renderSources (renderChunks seen (sortByPage docs)).2 rest).1,
       (renderSources (renderChunks seen (sortByPage docs)).2 rest).2) :=
  rfl

theorem renderSources_keys (groups : List (String × List Document)) :
    ∀ seen,
      ((((renderSources seen groups).1.flatMap (fun p => p.2)).map
        (fun d => pageKey d.source d.page)).Nodup) ∧
      (∀ k ∈ ((renderSources seen groups).1.flatMap (fun p => p.2)).map
        (fun d => pageKey d.source d.page), k ∉ seen) ∧
      ((renderSources seen groups).2 = seen ++
        ((renderSources seen groups).1.flatMap (fun p => p.2)).map
          (fun d => pageKey d.source d.page)) := by
  induction groups with
  | nil => intro seen; simp [renderSources]
  | cons g rest ih =>
    intro seen
    obtain ⟨s, docs⟩ := g
    rw [renderSources_cons]
    have hCn := renderChunks_keys_nodup (sortByPage docs) seen
    have hCf := renderChunks_fresh (sortByPage docs) seen
    have hCs := renderChunks_seen_eq (sortByPage docs) seen
    by_cases hE : (renderChunks seen (sortByPage docs)).1.isEmpty
    · have hCnil : (renderChunks seen (sortByPage docs)).1 = [] :=
        List.isEmpty_iff.mp hE
      have hS1e : (renderChunks seen (sortByPage docs)).2 = seen := by
        rw [hCs, hCnil]
        simp
      rw [if_pos hE, hS1e]
      exact ih seen
    · obtain ⟨ihn, ihf, ihs⟩ := ih (renderChunks seen (sortByPage docs)).2
      rw [if_neg hE]
      simp only [List.flatMap_cons, List.map_append]
      have hdisj : ∀ k ∈ (renderChunks seen (sortByPage docs)).1.map
            (fun d => pageKey d.source d.page),
          k ∉ ((renderSources (renderChunks seen (sortByPage docs)).2
              rest).1.flatMap (fun p => p.2)).map
            (fun d => pageKey d.source d.page) := by
        intro k hk hk'
        have h2 := ihf k hk'
        rw [hCs] at h2
        exact h2 (List.mem_append_right _ hk)
      refine ⟨?_, ?_, ?_⟩
      · rw [List.nodup_append]
        exact ⟨hCn, ihn, fun a ha => hdisj a ha⟩
      · intro k hk
        rcases List.mem_append.mp hk with hk' | hk'
        · obtain ⟨d, hd, hc⟩ := List.mem_map.mp hk'
          exact hc ▸ hCf d hd
        · have h2 := ihf k hk'
          rw [hCs] at h2
          intro habs
          exact h2 (List.mem_append_left _ habs)
      · rw [ihs, hCs, List.append_assoc]

theorem renderSources_mem (groups : List (String × List Document)) :
    ∀ seen p, p ∈ (renderSources seen groups).1 →
      ∃ docs0 seen0, (p.1, docs0) ∈ groups ∧
        p.2 = (renderChunks seen0 (sortByPage docs0)).1 := by
  induction groups with
  | nil => intro seen p hp; simp [renderSources] at hp
  | cons g rest ih =>
    intro seen p hp
    obtain ⟨s, docs⟩ := g
    rw [renderSources_cons] at hp
    by_cases hE : (renderChunks seen (sortByPage docs)).1.isEmpty
    · rw [if_pos hE] at hp
      obtain ⟨docs0, seen0, hmem, heq⟩ := ih _ p hp
      exact ⟨docs0, seen0, List.mem_cons_of_mem _ hmem, heq⟩
    · rw [if_neg hE] at hp
      rcases List.mem_cons.mp hp with rfl | hp'
      · exact ⟨docs, seen, List.mem_cons_self _ _, rfl⟩
      · obtain ⟨docs0, seen0, hmem, heq⟩ := ih _ p hp'
        exact ⟨docs0, seen0, List.mem_cons_of_mem _ hmem, heq⟩

theorem groupBySource_mem (docs : List Document) (s : String)
    (ds0 : List Document) (h : (s, ds0) ∈ groupBySource docs) :
    ds0 = docs.filter (fun d => d.source == s) := by
  unfold groupBySource at h
  obtain ⟨s', _, heq⟩ := List.mem_map.mp h
  obtain ⟨h1, h2⟩ := Prod.mk.injEq .. ▸ heq
  rw [← h2, h1]

/-- C5: for every retrieved document list, the rendered document context of
the Synthesizer repeats no `(source, page)` pair — each pair contributes at
most one labeled chunk — the chunks are grouped by source (every chunk in a
source block carries that block's source), and within each source block the
chunks are ordered by page ascending (missing pages sorting as 0, as in the
code's sort key). -/
theorem synthesizer_context_dedup (docs : List Document) :
    ((((renderedContext docs).flatMap (fun p => p.2)).map
        (fun d => (d.source, d.page))).Nodup) ∧
    (∀ p ∈ renderedContext docs, ∀ d ∈ p.2, d.source = p.1) ∧
    (∀ p ∈ renderedContext docs,
      p.2.Pairwise (fun a b => a.page.getD 0 ≤ b.page.getD 0)) := by
  refine ⟨?_, ?_, ?_⟩
  · have h := (renderSources_keys (groupBySource docs) []).1
    apply List.Nodup.of_map (fun pr : String × Option Nat => pageKey pr.1 pr.2)
    rw [List.map_map]
    exact h
  · intro p hp d hd
    obtain ⟨docs0, seen0, hmem, heq⟩ :=
      renderSources_mem (groupBySource docs) [] p hp
    rw [heq] at hd
    have hd' : d ∈ sortByPage docs0 :=
      (renderChunks_sublist (sortByPage docs0) seen0).subset hd
    have hd'' : d ∈ docs0 := (mem_sortByPage d docs0).mp hd'
    rw [groupBySource_mem docs p.1 docs0 hmem] at hd''
    simpa using (List.mem_filter.mp hd'').2
  · intro p hp
    obtain ⟨docs0, seen0, hmem, heq⟩ :=
      renderSources_mem (groupBySource docs) [] p hp
    rw [heq]
    exact List.Pairwise.sublist (renderChunks_sublist (sortByPage docs0) seen0)
      (sortByPage_pairwise docs0)

/-- Witness for C5: a concrete retrieved list with a duplicated
`(source, page)` pair, out-of-order pages, and two interleaved sources:
the rendered pairs are duplicate-free, and a chunk of the "s1" block
carries source "s1". -/
theorem synthesizer_context_dedup_witness :
    ((((renderedContext
        [⟨"b", "s2", some 9⟩, ⟨"a", "s1", some 2⟩, ⟨"c", "s1", some 1⟩,
         ⟨"adup", "s1", some 2⟩]).flatMap (fun p => p.2)).map
        (fun d => (d.source, d.page))).Nodup) ∧
    (⟨"c", "s1", some 1⟩ : Document).source = "s1" :=
  ⟨(synthesizer_context_dedup
      [⟨"b", "s2", some 9⟩, ⟨"a", "s1", some 2⟩, ⟨"c", "s1", some 1⟩,
       ⟨"adup", "s1", some 2⟩]).1,
   ((synthesizer_context_dedup
      [⟨"b", "s2", some 9⟩, ⟨"a", "s1", some 2⟩, ⟨"c", "s1", some 1⟩,
       ⟨"adup", "s1", some 2⟩]).2.1
      ("s1", [⟨"c", "s1", some 1⟩, ⟨"a", "s1", some 2⟩]) (by decide)
      ⟨"c", "s1", some 1⟩ (by decide))⟩

/-- Witness for C9: the pageless chunk a flat text file produces survives
grading under a query sharing no token with it. -/
theorem pageless_chunk_always_kept_witness :
    process_text_content (some "hello world") "notes.txt" =
      some { page_content := "hello world", source := "notes.txt",
             page := none } ∧
    (⟨"hello world", "notes.txt", none⟩ : Document) ∈
      (grade_documents "zzz" [⟨"hello world", "notes.txt", none⟩]).1 :=
  pageless_chunk_always_kept "hello world" "notes.txt" "zzz" _ _ rfl
    (by decide)
